import Mathlib

/-!
Verification of the multi-mode DMARC/SPF/DKIM client
(`js/services/multi-mode-dmarc-client.js`).

The JavaScript source is shallowly embedded: strings are Lean `String`s
(operated on through their `List Char` data where character-level scanning
is needed), DNS lookups — which in the source either resolve to an array of
strings or throw — are values of `Except String (List String)` supplied by
an oracle function, and the client's mutable fields are threaded explicitly
as state records.  Protocol statuses are kept as the literal strings
`"ok"`, `"warning"`, `"error"` used by the source.
-/

namespace DmarcClient

/-! ### JavaScript string primitives -/

/-- JavaScript whitespace (the ASCII part of `\s`), used by `trim` and by
the `[^;\s]` character class in the DMARC regexes. -/
def isJsSpace (c : Char) : Bool :=
  c == ' ' || c == '\t' || c == '\n' || c == '\r' || c == '\x0b' || c == '\x0c'

/-- Embeds `String.prototype.trim` on the character list. -/
def jsTrimList (l : List Char) : List Char :=
  ((l.dropWhile isJsSpace).reverse.dropWhile isJsSpace).reverse

/-- Embeds `String.prototype.trim`. -/
def jsTrim (s : String) : String :=
  String.mk (jsTrimList s.data)

/-- Embeds `String.prototype.toLowerCase`, ASCII range (all strings the client
compares are ASCII). -/
def jsToLowerList (l : List Char) : List Char :=
  l.map Char.toLower

/-- Embeds `String.prototype.toLowerCase` on strings. -/
def jsToLower (s : String) : String :=
  String.mk (jsToLowerList s.data)

/-- Does `l` start with `p`?  Helper for `jsIncludes`. -/
def startsWithList : List Char → List Char → Bool
  | _, [] => true
  | [], _ :: _ => false
  | c :: cs, p :: ps => c == p && startsWithList cs ps

/-- Embeds `String.prototype.includes` on character lists: does `pat` occur as a
contiguous substring of `l`? -/
def jsIncludesList (l pat : List Char) : Bool :=
  match l with
  | [] => pat.isEmpty
  | _ :: rest => startsWithList l pat || jsIncludesList rest pat

/-- Embeds `String.prototype.includes`. -/
def jsIncludes (s pat : String) : Bool :=
  jsIncludesList s.data pat.data

/-! ### Result data model

Shapes of the objects produced by `_checkDmarc`, `_checkSpf`, `_checkDkim`
and `_getErrorResult`.  The optional `error` field mirrors the source,
which only attaches `error` on the catch paths. -/

structure DmarcInfo where
  status : String
  record : String
  policy : String
  error : Option String := none
deriving Repr, DecidableEq

structure SpfInfo where
  status : String
  record : String
  error : Option String := none
deriving Repr, DecidableEq

structure DkimInfo where
  status : String
  selectors : List String
  error : Option String := none
deriving Repr, DecidableEq

structure DomainCheckResult where
  domain : String
  error : Option String := none
  dmarc : DmarcInfo
  spf : SpfInfo
  dkim : DkimInfo
  mx : List String
  securityScore : Nat
deriving Repr, DecidableEq

/-- Embeds `_getErrorResult(domain, errorMessage)`. -/
def getErrorResult (domain errorMessage : String) : DomainCheckResult :=
  { domain := domain
    error := some errorMessage
    dmarc := { status := "error", policy := "", record := "" }
    spf := { status := "error", record := "" }
    dkim := { status := "error", selectors := [] }
    mx := []
    securityScore := 0 }

/-! ### Scorer -/

/-- Embeds `_calculateSecurityScore(dmarcStatus, spfStatus, dkimStatus)`.  The
source starts from `score = 0` and adds the per-protocol contribution with
an if/else-if chain on the status string. -/
def calculateSecurityScore (dmarcStatus spfStatus dkimStatus : String) : Nat :=
  let score : Nat := 0
  let score := if dmarcStatus == "ok" then score + 40
    else if dmarcStatus == "warning" then score + 20 else score
  let score := if spfStatus == "ok" then score + 30
    else if spfStatus == "warning" then score + 15 else score
  let score := if dkimStatus == "ok" then score + 30
    else if dkimStatus == "warning" then score + 15 else score
  score

/-- The three status strings of the normalized status model. -/
def isStatusStr (s : String) : Prop :=
  s = "ok" ∨ s = "warning" ∨ s = "error"

/-- Severity rank used to express "strictly better": error < warning < ok. -/
def statusRank (s : String) : Nat :=
  if s = "ok" then 2 else if s = "warning" then 1 else 0

/-- The claimed DMARC weight table: 40 / 20 / 0 for ok / warning / error. -/
def dmarcWeight (s : String) : Nat :=
  if s = "ok" then 40 else if s = "warning" then 20 else 0

/-- The claimed SPF weight table: 30 / 15 / 0 for ok / warning / error. -/
def spfWeight (s : String) : Nat :=
  if s = "ok" then 30 else if s = "warning" then 15 else 0

/-- The claimed DKIM weight table: 30 / 15 / 0 for ok / warning / error. -/
def dkimWeight (s : String) : Nat :=
  if s = "ok" then 30 else if s = "warning" then 15 else 0

/-! ### DMARC record analysis (`_checkDmarc`)

The source regexes are embedded as first-match scanners over the
character list:
- `/p=([^;\s]+)/i`   → `matchPolicy`
- `/pct=([0-9]+)/i`  → `matchPct` (followed by `parseInt` on the digits)
- `/rua=([^;\s]+)/i` → `matchRua` -/

/-- Case-insensitive single-character comparison (the `/i` flag). -/
def charCI (c pat : Char) : Bool :=
  c.toLower == pat.toLower

/-- Value capture `[^;\s]+`: the maximal run of characters that are not
`;` and not whitespace. -/
def takeValueChars (l : List Char) : List Char :=
  l.takeWhile (fun c => !(c == ';' || isJsSpace c))

/-- First match of `/p=([^;\s]+)/i`, returning the capture group: scan left
to right for `p=` (case-insensitive) followed by at least one non-`;`,
non-whitespace character; on a zero-length capture the engine advances one
position, as does this scanner. -/
def matchPolicy : List Char → Option (List Char)
  | [] => none
  | c :: rest =>
    match rest with
    | '=' :: rest2 =>
      if charCI c 'p' then
        let v := takeValueChars rest2
        if v.isEmpty then matchPolicy rest else some v
      else matchPolicy rest
    | _ => matchPolicy rest

/-- Embeds `parseInt` on a non-empty digit string. -/
def digitsToNat (l : List Char) : Nat :=
  l.foldl (fun acc c => acc * 10 + (c.toNat - '0'.toNat)) 0

/-- First match of `/pct=([0-9]+)/i`, returning `parseInt` of the captured
digit run. -/
def matchPct : List Char → Option Nat
  | [] => none
  | c :: rest =>
    match rest with
    | c2 :: c3 :: '=' :: rest3 =>
      if charCI c 'p' && charCI c2 'c' && charCI c3 't' then
        let ds := rest3.takeWhile (fun d => '0' ≤ d && d ≤ '9')
        if ds.isEmpty then matchPct rest else some (digitsToNat ds)
      else matchPct rest
    | _ => matchPct rest

/-- First match of `/rua=([^;\s]+)/i`, returning the capture group. -/
def matchRua : List Char → Option (List Char)
  | [] => none
  | c :: rest =>
    match rest with
    | c2 :: c3 :: '=' :: rest3 =>
      if charCI c 'r' && charCI c2 'u' && charCI c3 'a' then
        let v := takeValueChars rest3
        if v.isEmpty then matchRua rest else some v
      else matchRua rest
    | _ => matchRua rest

/-- The analysis body of `_checkDmarc` once a record containing `v=DMARC1`
has been selected: `status` starts at `ok` and is downgraded to `warning`
by the policy, pct and rua checks in source order. -/
def analyzeDmarcRecord (record : String) : DmarcInfo :=
  let cs := record.data
  let sp : String × String :=
    match matchPolicy cs with
    | some v =>
      let policy := String.mk (jsToLowerList v)
      (if policy == "none" then "warning" else "ok", policy)
    | none => ("warning", "")
  let status := sp.1
  let policy := sp.2
  let status :=
    match matchPct cs with
    | none => "warning"
    | some n => if n < 100 then "warning" else status
  let status :=
    match matchRua cs with
    | none => "warning"
    | some _ => status
  { status := status, record := record, policy := policy }

/-- Embeds `_checkDmarc`, as a function of the outcome of the TXT lookup at
`_dmarc.<domain>` (the source's `_dnsLookup` either resolves to an array
or throws; a throw lands in the catch branch). -/
def checkDmarc (lookupOutcome : Except String (List String)) : DmarcInfo :=
  match lookupOutcome with
  | .error msg => { status := "error", record := "", policy := "", error := some msg }
  | .ok dmarcRecords =>
    if dmarcRecords.isEmpty then
      { status := "error", record := "", policy := "" }
    else
      match dmarcRecords.find? (fun r => jsIncludes r "v=DMARC1") with
      | none => { status := "error", record := "", policy := "" }
      | some dmarcRecord => analyzeDmarcRecord dmarcRecord

/-- The claim's characterization of the DMARC warning conditions: `p=`
missing, or policy `none`, or `pct=` missing or below 100, or `rua=`
missing. -/
def dmarcWarnCond (record : String) : Bool :=
  (matchPolicy record.data).isNone ||
  (match matchPolicy record.data with
   | some v => String.mk (jsToLowerList v) == "none"
   | none => false) ||
  (matchPct record.data).isNone ||
  (match matchPct record.data with
   | some n => n < 100
   | none => false) ||
  (matchRua record.data).isNone

/-! ### SPF record analysis (`_checkSpf`) -/

/-- Embeds `_checkSpf`, as a function of the outcome of the apex TXT lookup. -/
def checkSpf (lookupOutcome : Except String (List String)) : SpfInfo :=
  match lookupOutcome with
  | .error msg => { status := "error", record := "", error := some msg }
  | .ok txtRecords =>
    if txtRecords.isEmpty then
      { status := "error", record := "" }
    else
      match txtRecords.find? (fun r => jsIncludes r "v=spf1") with
      | none => { status := "error", record := "" }
      | some spfRecord =>
        let status :=
          if jsIncludes spfRecord "?all" then "warning"
          else if jsIncludes spfRecord "+all" then "warning"
          else if !(jsIncludes spfRecord "-all") && !(jsIncludes spfRecord "~all") then "warning"
          else "ok"
        { status := status, record := spfRecord }

/-! ### DKIM analysis (`_checkDkim`)

The DNS Lookup Port is an oracle `name → type → Except String (List String)`;
a rejected lookup is the `.error` case. -/

/-- The fixed probe list of `_checkDkim`. -/
def commonSelectors : List String :=
  ["default", "google", "selector1", "selector2", "k1", "dkim"]

/-- Does a TXT record look like DKIM data? -/
def dkimRecordMatches (r : String) : Bool :=
  jsIncludes r "v=DKIM1" || jsIncludes r "k=rsa" || jsIncludes r "p="

/-- One iteration of the selector loop: lookup failure is swallowed
(`catch (selectorError) { continue }`), and a selector is found when the
record list is non-empty and some record matches. -/
def dkimSelectorFound (oracle : String → String → Except String (List String))
    (domain s : String) : Bool :=
  match oracle (s ++ "._domainkey." ++ domain) "TXT" with
  | .error _ => false
  | .ok dkimRecords =>
    decide (0 < dkimRecords.length) && dkimRecords.any dkimRecordMatches

/-- The selector loop of `_checkDkim`, accumulating `foundSelectors` in
probe order. -/
def dkimProbe (oracle : String → String → Except String (List String))
    (domain : String) : List String → List String
  | [] => []
  | s :: rest =>
    if dkimSelectorFound oracle domain s then
      s :: dkimProbe oracle domain rest
    else
      dkimProbe oracle domain rest

/-- Embeds `_checkDkim`. -/
def checkDkim (oracle : String → String → Except String (List String))
    (domain : String) : DkimInfo :=
  let foundSelectors := dkimProbe oracle domain commonSelectors
  let status :=
    if 0 < foundSelectors.length then
      (if 1 < foundSelectors.length then "ok" else "warning")
    else "error"
  { status := status, selectors := foundSelectors }

/-! ### Offline mode availability (`checkOfflineModeAvailability`) -/

/-- Embeds `!!testResult && Array.isArray(testResult)`: a resolved `_dnsLookup`
value is a JavaScript array, and every array — the empty array included —
is truthy and satisfies `Array.isArray`. -/
def jsArrayTruthyAndIsArray (_l : List String) : Bool :=
  true

/-- Embeds `checkOfflineModeAvailability`: performs the test TXT lookup for
`example.com`; a throw lands in the catch branch and yields `false`. -/
def checkOfflineModeAvailability
    (oracle : String → String → Except String (List String)) : Bool :=
  match oracle "example.com" "TXT" with
  | .ok testResult => jsArrayTruthyAndIsArray testResult
  | .error _ => false

/-- An oracle with every lookup failure replaced by an empty answer; used
to state that `_checkDkim` swallows per-selector lookup failures. -/
def errorsAsEmpty (oracle : String → String → Except String (List String)) :
    String → String → Except String (List String) :=
  fun name ty =>
    match oracle name ty with
    | .error _ => .ok []
    | .ok l => .ok l

/-! ### Domain validator (`isValidDomain`)

The source tests the anchored regex
`/^(?:[a-z0-9](?:[a-z0-9-]{0,61}[a-z0-9])?\.)+[a-z0-9][a-z0-9-]{0,61}[a-z0-9]$/i`.
Neither the leading-label alternative nor the final-label pattern can
match a `.` (their character classes are `[a-z0-9]` and `[a-z0-9-]`), so
a string matches the regex iff splitting it at every `.` yields at least
two segments, every segment but the last matches the leading-label
pattern, and the last matches the final-label pattern.  The embedding
splits and checks the per-label patterns directly. -/

/-- Embeds `[a-z0-9]` under the `/i` flag. -/
def isAlnumCI (c : Char) : Bool :=
  ('a' ≤ c && c ≤ 'z') || ('A' ≤ c && c ≤ 'Z') || ('0' ≤ c && c ≤ '9')

/-- Embeds `[a-z0-9-]` under the `/i` flag. -/
def isAlnumHyph (c : Char) : Bool :=
  isAlnumCI c || c == '-'

/-- Split a character list at every `'.'` (the accumulator holds the
current segment reversed). -/
def splitOnDotAux : List Char → List Char → List (List Char)
  | [], acc => [acc.reverse]
  | '.' :: rest, acc => acc.reverse :: splitOnDotAux rest []
  | c :: rest, acc => splitOnDotAux rest (c :: acc)

/-- The leading-label pattern `[a-z0-9](?:[a-z0-9-]{0,61}[a-z0-9])?`. -/
def regexLabel (l : List Char) : Bool :=
  match l with
  | [] => false
  | c :: rest =>
    isAlnumCI c &&
      (rest.isEmpty ||
        (match rest.reverse with
         | lastc :: midRev =>
           decide (midRev.length ≤ 61) && isAlnumCI lastc && midRev.all isAlnumHyph
         | [] => false))

/-- The final-label pattern `[a-z0-9][a-z0-9-]{0,61}[a-z0-9]`. -/
def regexTld (l : List Char) : Bool :=
  match l with
  | [] => false
  | c :: rest =>
    isAlnumCI c &&
      (match rest.reverse with
       | lastc :: midRev =>
         decide (midRev.length ≤ 61) && isAlnumCI lastc && midRev.all isAlnumHyph
       | [] => false)

/-- Embeds `isValidDomain(domain)`: the anchored regex test. -/
def isValidDomain (s : String) : Bool :=
  match (splitOnDotAux s.data []).reverse with
  | [] => false
  | tld :: revInit => !revInit.isEmpty && revInit.all regexLabel && regexTld tld

/-- A label as claimed: 1–63 characters of letters, digits and internal
hyphens, not starting or ending with a hyphen. -/
def claimLabel (l : List Char) : Bool :=
  decide (1 ≤ l.length) && decide (l.length ≤ 63) && l.all isAlnumHyph &&
    !(l.head? == some '-') && !(l.getLast? == some '-')

/-- The claim's acceptance condition verbatim: one or more dot-separated
labels, each a `claimLabel`. -/
def claimValidDomain (s : String) : Bool :=
  let labels := splitOnDotAux s.data []
  decide (1 ≤ labels.length) && labels.all claimLabel

/-- The amended acceptance condition: two or more dot-separated labels,
every non-final label a `claimLabel` (1–63 chars), and the final label a
`claimLabel` of at least 2 characters. -/
def amendedValidDomain (s : String) : Bool :=
  match (splitOnDotAux s.data []).reverse with
  | [] => false
  | tld :: revInit =>
    decide (1 ≤ revInit.length) && revInit.all claimLabel &&
      (claimLabel tld && decide (2 ≤ tld.length))

/-! ### `checkDomain`, the cache, and `clearCache`

The mutable client fields relevant to a single-domain check are
`cacheEnabled` and the `Map` `cache`.  The `Map` is embedded as an
association list with `Map.set`'s replace-or-append semantics.  The active
mode's check (`_checkDomainViaApi` / `_checkDomainViaWeb` /
`_checkDomainOffline` / `_simulateDomainCheck`) is abstracted as a
strategy function that either resolves to a result or throws; the result
triple also carries the number of strategy invocations, so that "the
lookup call count is unchanged" is expressible.  Arbitrary JavaScript
arguments are embedded as `JsValue`. -/

inductive JsValue where
  | vstr (s : String)
  | vnum (n : Int)
  | vbool (b : Bool)
  | vnull
  | vundefined
deriving Repr, DecidableEq

/-- Embeds `Map.prototype.get` on the association-list cache. -/
def cacheGet (cache : List (String × DomainCheckResult)) (k : String) :
    Option DomainCheckResult :=
  (cache.find? (fun e => e.1 == k)).map (fun e => e.2)

/-- Embeds `Map.prototype.set`: overwrite an existing key in place, else append. -/
def cacheSet (cache : List (String × DomainCheckResult)) (k : String)
    (v : DomainCheckResult) : List (String × DomainCheckResult) :=
  match cache with
  | [] => [(k, v)]
  | (k', v') :: rest =>
    if k' == k then (k', v) :: rest else (k', v') :: cacheSet rest k v

/-- The client state a `checkDomain` call reads and writes. -/
structure CacheState where
  cacheEnabled : Bool
  cache : List (String × DomainCheckResult)
deriving Repr, DecidableEq

/-- Embeds `checkDomain(domain)`.  Returns the result, the updated state, and the
number of times the mode strategy was invoked.  The guard
`!domain || typeof domain !== 'string'` accepts exactly the non-empty
strings; the strategy's throw is caught by the surrounding `try` and turned
into `_getErrorResult(domain, error.message)` without touching the cache. -/
def checkDomain (st : CacheState)
    (strategy : String → Except String DomainCheckResult) (v : JsValue) :
    DomainCheckResult × CacheState × Nat :=
  match v with
  | .vstr s =>
    if s.isEmpty then
      (getErrorResult "unknown" "Не указан домен для проверки", st, 0)
    else
      let domain := jsToLower (jsTrim s)
      if !(isValidDomain domain) then
        (getErrorResult domain "Некорректный формат доменного имени", st, 0)
      else
        match (if st.cacheEnabled then cacheGet st.cache domain else none) with
        | some cached => (cached, st, 0)
        | none =>
          match strategy domain with
          | .ok result =>
            (result,
             (if st.cacheEnabled then
                { st with cache := cacheSet st.cache domain result }
              else st),
             1)
          | .error msg => (getErrorResult domain msg, st, 1)
  | _ => (getErrorResult "unknown" "Не указан домен для проверки", st, 0)

/-- Embeds `clearCache()`. -/
def clearCache (st : CacheState) : CacheState :=
  { st with cache := [] }

/-- The guard `!domain || typeof domain !== 'string'`: true for every
non-string value (whatever its truthiness) and for the empty string, the
only falsy string. -/
def jsMissingOrNonString : JsValue → Bool
  | .vstr s => s.isEmpty
  | _ => true

/-! ### Batch scan (`checkDomains`)

`checkDomains` validates and partitions the trimmed input, rejects when a
scan is running or no valid domain remains, pre-materializes error results
for the invalid entries, lets the worker pool drain the valid-domain queue
— the interleaving of worker completions is abstracted as the list
`completionOrder`, a permutation of the valid domains — and finally
re-sorts by `_sortResultsByOriginalOrder(results, [...invalidDomains,
...validDomains])`.  Per-domain checking is abstracted as a result
function `f` standing for `checkDomain` (whose rejections the worker has
already converted to error results). -/

/-- The trimmed input list (`domains.map(d => d.trim())`). -/
def trimmedOf (domains : List String) : List String :=
  domains.map jsTrim

/-- Embeds `validDomains`: trimmed, non-empty and accepted by the validator. -/
def validDomainsOf (domains : List String) : List String :=
  (trimmedOf domains).filter (fun d => decide (0 < d.length) && isValidDomain d)

/-- Embeds `invalidDomains`: trimmed, non-empty and rejected by the validator. -/
def invalidDomainsOf (domains : List String) : List String :=
  (trimmedOf domains).filter (fun d => decide (0 < d.length) && !(isValidDomain d))

/-- Embeds `Map.prototype.get` on the map built by
`results.forEach(r => resultMap.set(r.domain, r))`: the value set last —
i.e. the last result whose `domain` is `d` — wins. -/
def resultMapGet (results : List DomainCheckResult) (d : String) :
    Option DomainCheckResult :=
  results.reverse.find? (fun r => r.domain == d)

/-- Embeds `_sortResultsByOriginalOrder(results, originalDomains)`: map each
original domain to its entry in the result map, or to a `Result not found`
error result. -/
def sortResultsByOriginalOrder (results : List DomainCheckResult)
    (originalDomains : List String) : List DomainCheckResult :=
  originalDomains.map (fun d =>
    (resultMapGet results d).getD (getErrorResult d "Result not found"))

/-- Embeds `checkDomains(domains)`, returning the settled outcome of the promise
together with the final `isScanning` flag.  `isScanning` is the flag at
entry; both rejection paths throw before any state is touched, so the flag
is returned unchanged there, while a completed scan resets it to
`false`. -/
def checkDomains (isScanning : Bool) (domains : List String)
    (f : String → DomainCheckResult) (completionOrder : List String) :
    Except String (List DomainCheckResult) × Bool :=
  if isScanning then
    (.error "Сканирование уже выполняется", isScanning)
  else
    let validDomains := validDomainsOf domains
    let invalidDomains := invalidDomainsOf domains
    if validDomains.isEmpty then
      (.error "Список не содержит корректных доменов для сканирования", isScanning)
    else
      let invalidResults :=
        invalidDomains.map (fun d => getErrorResult d "Некорректный формат доменного имени")
      let results := invalidResults ++ completionOrder.map f
      let allDomains := invalidDomains ++ validDomains
      (.ok (sortResultsByOriginalOrder results allDomains), false)

/-- A fixed all-ok stub result, standing for a deterministic per-domain
check in concrete runs of the batch-scan model. -/
def stubResult (d : String) : DomainCheckResult :=
  { domain := d
    dmarc := { status := "ok", record := "v=DMARC1; p=reject; rua=mailto:a@b.com; pct=100", policy := "reject" }
    spf := { status := "ok", record := "v=spf1 -all" }
    dkim := { status := "ok", selectors := ["default", "google"] }
    mx := []
    securityScore := 100 }

end DmarcClient

namespace DmarcClient

/-- C2. Over status triples drawn from `{ok, warning, error}`, the
security score is the sum of the fixed per-protocol weights (DMARC 40/20/0,
SPF 30/15/0, DKIM 30/15/0), lies in `[0,100]` (it is a `Nat`, so `0 ≤` is
inherent), and is monotone in each coordinate with respect to the severity
order error < warning < ok, so replacing any single status by a strictly
better one never decreases the total.  Determinism holds because
`calculateSecurityScore` is a pure function of its three arguments. -/
theorem securityScore_weights_bounds_monotone
    (d s k : String) (hd : isStatusStr d) (hs : isStatusStr s) (hk : isStatusStr k) :
    calculateSecurityScore d s k = dmarcWeight d + spfWeight s + dkimWeight k ∧
    calculateSecurityScore d s k ≤ 100 ∧
    (∀ d', isStatusStr d' → statusRank d ≤ statusRank d' →
      calculateSecurityScore d s k ≤ calculateSecurityScore d' s k) ∧
    (∀ s', isStatusStr s' → statusRank s ≤ statusRank s' →
      calculateSecurityScore d s k ≤ calculateSecurityScore d s' k) ∧
    (∀ k', isStatusStr k' → statusRank k ≤ statusRank k' →
      calculateSecurityScore d s k ≤ calculateSecurityScore d s k') := by
  refine ⟨?_, ?_, ?_, ?_, ?_⟩
  · rcases hd with rfl | rfl | rfl <;> rcases hs with rfl | rfl | rfl <;>
      rcases hk with rfl | rfl | rfl <;> decide
  · rcases hd with rfl | rfl | rfl <;> rcases hs with rfl | rfl | rfl <;>
      rcases hk with rfl | rfl | rfl <;> decide
  · intro d' hd' hr
    rcases hd with rfl | rfl | rfl <;> rcases hd' with rfl | rfl | rfl <;>
      rcases hs with rfl | rfl | rfl <;> rcases hk with rfl | rfl | rfl <;>
      revert hr <;> decide
  · intro s' hs' hr
    rcases hs with rfl | rfl | rfl <;> rcases hs' with rfl | rfl | rfl <;>
      rcases hd with rfl | rfl | rfl <;> rcases hk with rfl | rfl | rfl <;>
      revert hr <;> decide
  · intro k' hk' hr
    rcases hk with rfl | rfl | rfl <;> rcases hk' with rfl | rfl | rfl <;>
      rcases hd with rfl | rfl | rfl <;> rcases hs with rfl | rfl | rfl <;>
      revert hr <;> decide

/-- Witness for `securityScore_weights_bounds_monotone` at the concrete
triple `(ok, warning, error)`. -/
theorem securityScore_weights_bounds_monotone_spot :
    calculateSecurityScore "ok" "warning" "error" =
      dmarcWeight "ok" + spfWeight "warning" + dkimWeight "error" ∧
    calculateSecurityScore "ok" "warning" "error" ≤ 100 := by
  have h := securityScore_weights_bounds_monotone "ok" "warning" "error"
    (Or.inl rfl) (Or.inr (Or.inl rfl)) (Or.inr (Or.inr rfl))
  exact ⟨h.1, h.2.1⟩

/-- The sequential status downgrades of `analyzeDmarcRecord` compute the
same status as a single test of the disjunction `dmarcWarnCond`. -/
lemma analyzeDmarcRecord_status (r : String) :
    (analyzeDmarcRecord r).status = (if dmarcWarnCond r then "warning" else "ok") := by
  unfold analyzeDmarcRecord dmarcWarnCond
  rcases hp : matchPolicy r.data with _ | v <;>
    rcases hc : matchPct r.data with _ | n <;>
      rcases hu : matchRua r.data with _ | u <;>
        simp only [hp, hc, hu, Option.isNone_none, Option.isNone_some] <;>
          split_ifs <;> simp_all <;> omega

/-- Field shape of `analyzeDmarcRecord`. -/
lemma analyzeDmarcRecord_fields (r : String) :
    (analyzeDmarcRecord r).record = r ∧
    (analyzeDmarcRecord r).policy =
      (match matchPolicy r.data with
       | some v => String.mk (jsToLowerList v)
       | none => "") ∧
    (analyzeDmarcRecord r).error = none := by
  unfold analyzeDmarcRecord
  rcases hp : matchPolicy r.data with _ | v <;> simp [hp]

/-- C3. DMARC analysis of the TXT records at `_dmarc.<domain>`: with
no record containing `v=DMARC1` (the empty list included, since `find?` on
it is `none`), the result is `status = error` with empty record and
policy; otherwise the first such record is selected, the policy is the
lowercased capture of the case-insensitive `p=` match (empty when absent),
and the status is `warning` exactly when `p=` is missing, or the policy is
`none`, or `pct=` is missing or its integer value is below 100, or `rua=`
is missing — several warning conditions still collapse to the single
status `warning` — and `ok` exactly when none of those conditions hold. -/
theorem checkDmarc_first_record_policy_warning
    (records : List String) :
    (records.find? (fun r => jsIncludes r "v=DMARC1") = none →
      checkDmarc (.ok records) = { status := "error", record := "", policy := "" }) ∧
    (∀ r, records.find? (fun r => jsIncludes r "v=DMARC1") = some r →
      (checkDmarc (.ok records)).record = r ∧
      (checkDmarc (.ok records)).policy =
        (match matchPolicy r.data with
         | some v => String.mk (jsToLowerList v)
         | none => "") ∧
      ((checkDmarc (.ok records)).status = "warning" ↔ dmarcWarnCond r = true) ∧
      ((checkDmarc (.ok records)).status = "ok" ↔ dmarcWarnCond r = false)) := by
  constructor
  · intro h
    cases records with
    | nil => rfl
    | cons a l => simp [checkDmarc, h]
  · intro r h
    cases records with
    | nil => simp at h
    | cons a l =>
      have hred : checkDmarc (.ok (a :: l)) = analyzeDmarcRecord r := by
        simp [checkDmarc, h]
      rw [hred]
      obtain ⟨h1, h2, _⟩ := analyzeDmarcRecord_fields r
      refine ⟨h1, h2, ?_, ?_⟩ <;> rw [analyzeDmarcRecord_status] <;>
        rcases hw : dmarcWarnCond r <;> simp [hw]

/-- Witness for `checkDmarc_first_record_policy_warning` at the record of
the spec's example: status resolves to `ok` with policy `reject`. -/
theorem checkDmarc_first_record_policy_warning_spot :
    (checkDmarc (.ok ["v=DMARC1; p=reject; rua=mailto:a@b.com; pct=100"])).status = "ok" ∧
    (checkDmarc (.ok ["v=DMARC1; p=reject; rua=mailto:a@b.com; pct=100"])).policy = "reject" := by
  have h := (checkDmarc_first_record_policy_warning
    ["v=DMARC1; p=reject; rua=mailto:a@b.com; pct=100"]).2
    "v=DMARC1; p=reject; rua=mailto:a@b.com; pct=100" (by decide)
  exact ⟨h.2.2.2.mpr (by decide), by rw [h.2.1]; decide⟩

/-- C4. SPF analysis of the apex TXT records: with no record containing
`v=spf1` (in particular for the empty list) the status is `error` with an
empty record; otherwise the first such record becomes the SPF record and
its status follows the source's precedence — `?all` ⇒ warning, else `+all`
⇒ warning, else neither `-all` nor `~all` ⇒ warning, else `ok`. -/
theorem checkSpf_first_record_directives
    (records : List String) :
    (records.find? (fun r => jsIncludes r "v=spf1") = none →
      checkSpf (.ok records) = { status := "error", record := "" }) ∧
    (∀ r, records.find? (fun r => jsIncludes r "v=spf1") = some r →
      (checkSpf (.ok records)).record = r ∧
      (checkSpf (.ok records)).status =
        (if jsIncludes r "?all" then "warning"
         else if jsIncludes r "+all" then "warning"
         else if !(jsIncludes r "-all") && !(jsIncludes r "~all") then "warning"
         else "ok") ∧
      ((checkSpf (.ok records)).status = "warning" ↔
        (jsIncludes r "?all" = true ∨ jsIncludes r "+all" = true ∨
          (jsIncludes r "-all" = false ∧ jsIncludes r "~all" = false))) ∧
      ((checkSpf (.ok records)).status = "ok" ↔
        (jsIncludes r "?all" = false ∧ jsIncludes r "+all" = false ∧
          (jsIncludes r "-all" = true ∨ jsIncludes r "~all" = true)))) := by
  constructor
  · intro h
    cases records with
    | nil => rfl
    | cons a l => simp [checkSpf, h]
  · intro r h
    cases records with
    | nil => simp at h
    | cons a l =>
      have hred : checkSpf (.ok (a :: l)) =
          { status :=
              (if jsIncludes r "?all" then "warning"
               else if jsIncludes r "+all" then "warning"
               else if !(jsIncludes r "-all") && !(jsIncludes r "~all") then "warning"
               else "ok"),
            record := r, error := none } := by
        simp [checkSpf, h]
      rw [hred]
      refine ⟨rfl, rfl, ?_, ?_⟩ <;>
        rcases h1 : jsIncludes r "?all" <;>
          rcases h2 : jsIncludes r "+all" <;>
            rcases h3 : jsIncludes r "-all" <;>
              rcases h4 : jsIncludes r "~all" <;>
                simp [h1, h2, h3, h4]

/-- Witness for `checkSpf_first_record_directives` at the spec's example
stub: a record containing `+all` resolves to `warning`. -/
theorem checkSpf_first_record_directives_spot :
    (checkSpf (.ok ["v=spf1 +all"])).status = "warning" := by
  have h := (checkSpf_first_record_directives ["v=spf1 +all"]).2
    "v=spf1 +all" (by decide)
  exact h.2.2.1.mpr (by decide)

lemma dkimSelectorFound_errorsAsEmpty
    (oracle : String → String → Except String (List String)) (domain s : String) :
    dkimSelectorFound (errorsAsEmpty oracle) domain s = dkimSelectorFound oracle domain s := by
  unfold dkimSelectorFound errorsAsEmpty
  rcases h : oracle (s ++ "._domainkey." ++ domain) "TXT" with e | l <;> simp [h]

lemma dkimProbe_eq_filter
    (oracle : String → String → Except String (List String)) (domain : String) :
    ∀ l : List String,
      dkimProbe oracle domain l = l.filter (dkimSelectorFound oracle domain)
  | [] => rfl
  | s :: rest => by
    simp only [dkimProbe, dkimProbe_eq_filter oracle domain rest, List.filter_cons]

/-- C5. The DKIM analysis probes `default, google, selector1,
selector2, k1, dkim` in that fixed order at `<selector>._domainkey.<domain>`;
the returned `selectors` list is exactly the probe-order sublist of
selectors whose lookup succeeded with some record containing `v=DKIM1`,
`k=rsa` or `p=`; a per-selector lookup failure only makes that selector
not-found (replacing every failure by an empty answer changes nothing),
and the status is `error`/`warning`/`ok` according to whether 0 / exactly
1 / at least 2 selectors were found. -/
theorem checkDkim_selectors_status
    (oracle : String → String → Except String (List String)) (domain : String) :
    (checkDkim oracle domain).selectors =
      commonSelectors.filter (dkimSelectorFound oracle domain) ∧
    checkDkim (errorsAsEmpty oracle) domain = checkDkim oracle domain ∧
    ((checkDkim oracle domain).status = "error" ↔
      (checkDkim oracle domain).selectors.length = 0) ∧
    ((checkDkim oracle domain).status = "warning" ↔
      (checkDkim oracle domain).selectors.length = 1) ∧
    ((checkDkim oracle domain).status = "ok" ↔
      2 ≤ (checkDkim oracle domain).selectors.length) := by
  have hsel : (checkDkim oracle domain).selectors =
      commonSelectors.filter (dkimSelectorFound oracle domain) := by
    simp [checkDkim, dkimProbe_eq_filter]
  have herr : checkDkim (errorsAsEmpty oracle) domain = checkDkim oracle domain := by
    unfold checkDkim
    have : dkimProbe (errorsAsEmpty oracle) domain commonSelectors =
        dkimProbe oracle domain commonSelectors := by
      rw [dkimProbe_eq_filter, dkimProbe_eq_filter]
      exact List.filter_congr fun s _ => dkimSelectorFound_errorsAsEmpty oracle domain s
    rw [this]
  refine ⟨hsel, herr, ?_⟩
  have hstat : (checkDkim oracle domain).status =
      (if 0 < (checkDkim oracle domain).selectors.length then
        (if 1 < (checkDkim oracle domain).selectors.length then "ok" else "warning")
      else "error") := by
    simp only [checkDkim]
  rw [hstat]
  rcases hn : (checkDkim oracle domain).selectors.length with _ | m
  · simp
  · rcases m with _ | m <;> simp

/-- Witness for `checkDkim_selectors_status`: not needed for hypotheses
(there are none), but included as a concrete spot-check of a run in which
one selector is found, one lookup fails, and the status is `warning`. -/
theorem checkDkim_selectors_status_spot :
    (checkDkim
      (fun name _ =>
        if name = "default._domainkey.x.com" then .ok ["v=DKIM1; k=rsa; p=MIG"]
        else if name = "k1._domainkey.x.com" then .error "lookup failed"
        else .ok []) "x.com").status = "warning" := by
  have h := checkDkim_selectors_status
    (fun name _ =>
      if name = "default._domainkey.x.com" then .ok ["v=DKIM1; k=rsa; p=MIG"]
      else if name = "k1._domainkey.x.com" then .error "lookup failed"
      else .ok []) "x.com"
  exact h.2.2.2.1.mpr (by decide)

/-- C6 counterexample. The claim says an empty record list makes
`checkOfflineModeAvailability` return `false`; but
`!!testResult && Array.isArray(testResult)` is `true` for the empty array,
so with a lookup resolving to `[]` the function returns `true`. -/
theorem checkOfflineModeAvailability_empty_true :
    checkOfflineModeAvailability (fun _ _ => .ok ([] : List String)) = true := rfl

/-- C6 (amended). The offline-mode availability check performs a test
TXT lookup for `example.com` and returns `true` iff that lookup resolves
(to any array of records, the empty array included); a lookup failure
makes it return `false`. -/
theorem checkOfflineModeAvailability_iff_resolves
    (oracle : String → String → Except String (List String)) :
    checkOfflineModeAvailability oracle = true ↔
      ∃ l, oracle "example.com" "TXT" = .ok l := by
  unfold checkOfflineModeAvailability jsArrayTruthyAndIsArray
  rcases h : oracle "example.com" "TXT" with e | l <;> simp [h]

lemma isAlnumCI_eq_hyph (c : Char) : isAlnumCI c = (isAlnumHyph c && !(c == '-')) := by
  unfold isAlnumHyph
  cases h : c == '-'
  · simp [h]
  · have hc : c = '-' := eq_of_beq h
    subst hc
    decide

lemma claimLabel_single (c : Char) : claimLabel [c] = isAlnumCI c := by
  unfold claimLabel
  rw [isAlnumCI_eq_hyph]
  simp

lemma claimLabel_concat (c lastc : Char) (mid : List Char) :
    claimLabel (c :: (mid ++ [lastc])) =
      (isAlnumCI c && (decide (mid.length ≤ 61) && isAlnumCI lastc && mid.all isAlnumHyph)) := by
  unfold claimLabel
  have h63 : ((c :: (mid ++ [lastc])).length ≤ 63) ↔ (mid.length ≤ 61) := by
    simp only [List.length_cons, List.length_append, List.length_nil]
    omega
  have h1 : (1 : Nat) ≤ (c :: (mid ++ [lastc])).length := by
    simp only [List.length_cons]
    omega
  have hlast : (c :: (mid ++ [lastc])).getLast? = some lastc := by
    rw [← List.cons_append, List.getLast?_concat]
  rw [decide_eq_decide.mpr h63, decide_eq_true h1, hlast,
    isAlnumCI_eq_hyph c, isAlnumCI_eq_hyph lastc]
  have hopt : ∀ a b : Char, ((some a : Option Char) == some b) = (a == b) := fun a b => rfl
  simp only [List.all_cons, List.all_append, List.all_nil, List.head?_cons, hopt,
    Bool.true_and, Bool.and_true]
  cases isAlnumHyph c <;> cases c == '-' <;> cases isAlnumHyph lastc <;>
    cases lastc == '-' <;> cases decide (mid.length ≤ 61) <;>
      cases mid.all isAlnumHyph <;> rfl

lemma regexLabel_single (c : Char) : regexLabel [c] = isAlnumCI c := by
  simp [regexLabel]

lemma regexLabel_concat (c lastc : Char) (mid : List Char) :
    regexLabel (c :: (mid ++ [lastc])) =
      (isAlnumCI c && (decide (mid.length ≤ 61) && isAlnumCI lastc && mid.all isAlnumHyph)) := by
  unfold regexLabel
  have hie : (mid ++ [lastc]).isEmpty = false := by cases mid <;> rfl
  have hrev : (mid ++ [lastc]).reverse = lastc :: mid.reverse := by
    rw [List.reverse_append]
    rfl
  simp only [hie, hrev, List.length_reverse, List.all_reverse, Bool.false_or]

lemma regexTld_single (c : Char) : regexTld [c] = false := by
  simp [regexTld]

lemma regexTld_concat (c lastc : Char) (mid : List Char) :
    regexTld (c :: (mid ++ [lastc])) =
      (isAlnumCI c && (decide (mid.length ≤ 61) && isAlnumCI lastc && mid.all isAlnumHyph)) := by
  unfold regexTld
  simp only [List.reverse_append, List.reverse_cons, List.reverse_nil, List.nil_append,
    List.singleton_append, List.length_reverse, List.all_reverse]

lemma regexLabel_eq_claim (l : List Char) : regexLabel l = claimLabel l := by
  cases l with
  | nil => rfl
  | cons c rest =>
    rcases hrev : rest.reverse with _ | ⟨lastc, midRev⟩
    · have h : rest = [] := by
        have h2 := congrArg List.reverse hrev
        rwa [List.reverse_reverse, List.reverse_nil] at h2
      subst h
      rw [regexLabel_single, claimLabel_single]
    · have h : rest = midRev.reverse ++ [lastc] := by
        have h2 := congrArg List.reverse hrev
        rw [List.reverse_reverse] at h2
        rw [h2, List.reverse_cons]
      subst h
      rw [regexLabel_concat, claimLabel_concat]

lemma regexTld_eq_claim (l : List Char) :
    regexTld l = (claimLabel l && decide (2 ≤ l.length)) := by
  cases l with
  | nil => rfl
  | cons c rest =>
    rcases hrev : rest.reverse with _ | ⟨lastc, midRev⟩
    · have h : rest = [] := by
        have h2 := congrArg List.reverse hrev
        rwa [List.reverse_reverse, List.reverse_nil] at h2
      subst h
      rw [regexTld_single, claimLabel_single]
      simp
    · have h : rest = midRev.reverse ++ [lastc] := by
        have h2 := congrArg List.reverse hrev
        rw [List.reverse_reverse] at h2
        rw [h2, List.reverse_cons]
      subst h
      rw [regexTld_concat, claimLabel_concat]
      have h2 : (2 ≤ (c :: (midRev.reverse ++ [lastc])).length) := by
        simp
      rw [decide_eq_true h2, Bool.and_true]

/-- C9 counterexample. The claim accepts any string of one or more
1–63-character labels; but the source regex demands at least two labels
and a final label of at least two characters, so it rejects `"a.b"` (its
one-character TLD) and `"localhost"` (a single label), both accepted by
the claim's condition. -/
theorem isValidDomain_claim_counterexample :
    (claimValidDomain "a.b" = true ∧ isValidDomain "a.b" = false) ∧
    (claimValidDomain "localhost" = true ∧ isValidDomain "localhost" = false) := by
  refine ⟨⟨?_, ?_⟩, ⟨?_, ?_⟩⟩ <;> decide

/-- C9 (amended). `isValidDomain` returns `true` exactly for strings
of **two or more** dot-separated labels where each non-final label is 1–63
characters of letters, digits and internal hyphens (no label starts or
ends with a hyphen), and the final label satisfies the same character
rules but is **2–63** characters long; matching is case-insensitive (the
character classes accept both cases), and the function is pure — it is a
Lean function of the string alone. -/
theorem isValidDomain_eq_amended (s : String) :
    isValidDomain s = amendedValidDomain s := by
  rcases h : (splitOnDotAux s.data []).reverse with _ | ⟨tld, revInit⟩
  · simp only [isValidDomain, amendedValidDomain, h]
  · simp only [isValidDomain, amendedValidDomain, h]
    have hfun : regexLabel = claimLabel := funext regexLabel_eq_claim
    rw [hfun, regexTld_eq_claim]
    have h2 : (!revInit.isEmpty) = decide (1 ≤ revInit.length) := by
      cases revInit <;> simp
    rw [h2]

/-- C10. `checkDomain` is total at its public boundary — the embedding
returns a `DomainCheckResult` for every `JsValue`, the strategy's throw
included (totality of the Lean function).  A missing or non-string input
(and the empty string, the only falsy string) yields the `unknown` error
result without touching the state; a syntactically invalid domain yields
the error result for the normalized domain; a strategy throw is caught and
converted to an error result; and every error result has all three
protocol statuses `error`, empty record/policy/selectors, empty `mx`, and
`securityScore` 0. -/
theorem checkDomain_total_error_shape :
    (∀ (st : CacheState) (strategy : String → Except String DomainCheckResult) (v : JsValue),
      jsMissingOrNonString v = true →
      checkDomain st strategy v =
        (getErrorResult "unknown" "Не указан домен для проверки", st, 0)) ∧
    (∀ (st : CacheState) (strategy : String → Except String DomainCheckResult) (s : String),
      s.isEmpty = false →
      isValidDomain (jsToLower (jsTrim s)) = false →
      checkDomain st strategy (.vstr s) =
        (getErrorResult (jsToLower (jsTrim s)) "Некорректный формат доменного имени", st, 0)) ∧
    (∀ (st : CacheState) (strategy : String → Except String DomainCheckResult) (s msg : String),
      s.isEmpty = false →
      isValidDomain (jsToLower (jsTrim s)) = true →
      (if st.cacheEnabled then cacheGet st.cache (jsToLower (jsTrim s)) else none) = none →
      strategy (jsToLower (jsTrim s)) = .error msg →
      checkDomain st strategy (.vstr s) =
        (getErrorResult (jsToLower (jsTrim s)) msg, st, 1)) ∧
    (∀ d m : String,
      (getErrorResult d m).domain = d ∧ (getErrorResult d m).error = some m ∧
      (getErrorResult d m).dmarc.status = "error" ∧ (getErrorResult d m).spf.status = "error" ∧
      (getErrorResult d m).dkim.status = "error" ∧ (getErrorResult d m).dmarc.record = "" ∧
      (getErrorResult d m).dmarc.policy = "" ∧ (getErrorResult d m).spf.record = "" ∧
      (getErrorResult d m).dkim.selectors = [] ∧ (getErrorResult d m).mx = [] ∧
      (getErrorResult d m).securityScore = 0) := by
  refine ⟨?_, ?_, ?_, ?_⟩
  · intro st strategy v hv
    cases v <;> simp only [jsMissingOrNonString] at hv <;> simp [checkDomain, hv]
  · intro st strategy s hs hval
    simp [checkDomain, hs, hval]
  · intro st strategy s msg hs hval hmiss hthrow
    simp [checkDomain, hs, hval, hmiss, hthrow]
  · intro d m
    exact ⟨rfl, rfl, rfl, rfl, rfl, rfl, rfl, rfl, rfl, rfl, rfl⟩

/-- Witness for `checkDomain_total_error_shape`: a `null` argument and an
invalid domain string, against a concrete state and strategy. -/
theorem checkDomain_total_error_shape_spot :
    checkDomain ⟨true, []⟩ (fun d => .ok (stubResult d)) .vnull =
      (getErrorResult "unknown" "Не указан домен для проверки", ⟨true, []⟩, 0) ∧
    checkDomain ⟨true, []⟩ (fun d => .ok (stubResult d)) (.vstr "not a domain") =
      (getErrorResult (jsToLower (jsTrim "not a domain")) "Некорректный формат доменного имени",
        ⟨true, []⟩, 0) := by
  constructor
  · exact checkDomain_total_error_shape.1 ⟨true, []⟩ (fun d => .ok (stubResult d)) .vnull rfl
  · exact checkDomain_total_error_shape.2.1 ⟨true, []⟩ (fun d => .ok (stubResult d))
      "not a domain" rfl (by decide)

lemma cacheGet_set (cache : List (String × DomainCheckResult)) (k k' : String)
    (v : DomainCheckResult) :
    cacheGet (cacheSet cache k' v) k = if k = k' then some v else cacheGet cache k := by
  induction cache with
  | nil =>
    by_cases h : k = k'
    · subst h
      simp [cacheSet, cacheGet]
    · simp [cacheSet, cacheGet, h, Ne.symm h]
  | cons hd tl ih =>
    obtain ⟨hk, hv⟩ := hd
    by_cases h1 : hk = k'
    · subst h1
      by_cases h2 : k = hk
      · subst h2
        simp [cacheSet, cacheGet]
      · simp [cacheSet, cacheGet, h2, Ne.symm h2]
    · have h1' : (hk == k') = false := by simp [h1]
      by_cases h2 : k = hk
      · subst h2
        have hkk : k ≠ k' := h1
        simp [cacheSet, cacheGet, h1', hkk]
      · have h2' : (hk == k) = false := by simp [Ne.symm h2]
        simp only [cacheSet, h1', Bool.false_eq_true, if_false]
        simp only [cacheGet, List.find?_cons, h2']
        exact ih

/-- C8. With caching enabled: a `checkDomain` call whose normalized
domain is in the cache returns the cached result verbatim, leaves the
state unchanged and performs zero strategy (hence DNS) invocations; a
cache-miss call whose strategy resolves stores its result under the
normalized domain (so every later call for the same normalized domain
hits); `checkDomain` never removes or replaces an existing cache entry
(no auto-expiry); and only the explicit `clearCache` empties the cache. -/
theorem checkDomain_cache_verbatim :
    (∀ (st : CacheState) (strategy : String → Except String DomainCheckResult) (s : String)
        (r : DomainCheckResult),
      st.cacheEnabled = true → s.isEmpty = false →
      isValidDomain (jsToLower (jsTrim s)) = true →
      cacheGet st.cache (jsToLower (jsTrim s)) = some r →
      checkDomain st strategy (.vstr s) = (r, st, 0)) ∧
    (∀ (st : CacheState) (strategy : String → Except String DomainCheckResult) (s : String)
        (result : DomainCheckResult),
      st.cacheEnabled = true → s.isEmpty = false →
      isValidDomain (jsToLower (jsTrim s)) = true →
      cacheGet st.cache (jsToLower (jsTrim s)) = none →
      strategy (jsToLower (jsTrim s)) = .ok result →
      (checkDomain st strategy (.vstr s)).1 = result ∧
      cacheGet ((checkDomain st strategy (.vstr s)).2.1).cache (jsToLower (jsTrim s)) =
        some result) ∧
    (∀ (st : CacheState) (strategy : String → Except String DomainCheckResult) (v : JsValue)
        (k : String) (r' : DomainCheckResult),
      cacheGet st.cache k = some r' →
      cacheGet ((checkDomain st strategy v).2.1).cache k = some r') ∧
    (∀ st : CacheState, (clearCache st).cache = []) := by
  refine ⟨?_, ?_, ?_, fun _ => rfl⟩
  · intro st strategy s r hen hs hval hget
    simp [checkDomain, hs, hval, hen, hget]
  · intro st strategy s result hen hs hval hmiss hok
    constructor
    · simp [checkDomain, hs, hval, hen, hmiss, hok]
    · simp only [checkDomain, hs, Bool.false_eq_true, if_false, hval, Bool.not_true, hen,
        if_true, hmiss, hok]
      simp [cacheGet_set]
  · intro st strategy v k r' hget
    cases v with
    | vstr s =>
      by_cases hs : s.isEmpty
      · simp [checkDomain, hs, hget]
      · simp only [Bool.not_eq_true] at hs
        by_cases hval : isValidDomain (jsToLower (jsTrim s)) = true
        · rcases hc : (if st.cacheEnabled then cacheGet st.cache (jsToLower (jsTrim s)) else none)
            with _ | cached
          · rcases hr : strategy (jsToLower (jsTrim s)) with msg | result
            · simp [checkDomain, hs, hval, hc, hr, hget]
            · by_cases hen : st.cacheEnabled = true
              · simp only [hen, if_true] at hc
                have hkd : k ≠ jsToLower (jsTrim s) := by
                  intro he
                  rw [he, hc] at hget
                  cases hget
                simp [checkDomain, hs, hval, hc, hr, hen, cacheGet_set, hkd, hget]
              · simp only [Bool.not_eq_true] at hen
                simp [checkDomain, hs, hval, hc, hr, hen, hget]
          · simp [checkDomain, hs, hval, hc, hget]
        · simp only [Bool.not_eq_true] at hval
          simp [checkDomain, hs, hval, hget]
    | vnum n => simpa [checkDomain] using hget
    | vbool b => simpa [checkDomain] using hget
    | vnull => simpa [checkDomain] using hget
    | vundefined => simpa [checkDomain] using hget

/-- Witness for `checkDomain_cache_verbatim`: a concrete pre-populated
cache is hit verbatim with zero strategy invocations. -/
theorem checkDomain_cache_verbatim_spot :
    checkDomain ⟨true, [("example.com", stubResult "example.com")]⟩
        (fun d => .ok (stubResult d)) (.vstr "example.com") =
      (stubResult "example.com", ⟨true, [("example.com", stubResult "example.com")]⟩, 0) :=
  checkDomain_cache_verbatim.1 ⟨true, [("example.com", stubResult "example.com")]⟩
    (fun d => .ok (stubResult d)) "example.com" (stubResult "example.com")
    rfl rfl (by decide) (by decide)

/-- C7. `checkDomains` fails fast in exactly the two
orchestration-state cases.  With `isScanning` set, the call rejects with
the re-entrancy message, the flag is returned untouched, and the outcome
does not depend on the per-domain check function or on any completion
order — no worker ran.  With no valid domain after trimming and
validation, the call rejects with the no-valid-domains message, the flag
stays `false`, and again the outcome is independent of the check
function. -/
theorem checkDomains_fail_fast :
    (∀ (domains : List String) (f : String → DomainCheckResult) (order : List String),
      checkDomains true domains f order = (.error "Сканирование уже выполняется", true)) ∧
    (∀ (domains : List String) (f : String → DomainCheckResult) (order : List String),
      validDomainsOf domains = [] →
      checkDomains false domains f order =
        (.error "Список не содержит корректных доменов для сканирования", false)) := by
  constructor
  · intro domains f order
    rfl
  · intro domains f order h
    simp [checkDomains, h]

/-- Witness for `checkDomains_fail_fast` at a concrete input with no valid
domain. -/
theorem checkDomains_fail_fast_spot :
    checkDomains false ["not a domain", "   "] stubResult [] =
      (.error "Список не содержит корректных доменов для сканирования", false) :=
  checkDomains_fail_fast.2 ["not a domain", "   "] stubResult [] (by decide)

lemma find?_domain_unique (rs : List DomainCheckResult) (d : String) (v : DomainCheckResult)
    (hall : ∀ r ∈ rs, r.domain = d → r = v) (hex : ∃ r ∈ rs, r.domain = d) :
    rs.find? (fun r => r.domain == d) = some v := by
  induction rs with
  | nil =>
    rcases hex with ⟨r, hr, _⟩
    cases hr
  | cons a t ih =>
    by_cases ha : a.domain = d
    · have hav : a = v := hall a (List.mem_cons_self a t) ha
      subst hav
      simp [List.find?_cons, ha]
    · have ha' : (a.domain == d) = false := by simp [ha]
      rw [List.find?_cons, ha']
      apply ih
      · intro r hr hrd
        exact hall r (List.mem_cons_of_mem a hr) hrd
      · rcases hex with ⟨r, hr, hrd⟩
        rcases List.mem_cons.mp hr with rfl | hrt
        · exact absurd hrd ha
        · exact ⟨r, hrt, hrd⟩

lemma resultMapGet_unique (results : List DomainCheckResult) (d : String)
    (v : DomainCheckResult)
    (hall : ∀ r ∈ results, r.domain = d → r = v) (hex : ∃ r ∈ results, r.domain = d) :
    resultMapGet results d = some v := by
  unfold resultMapGet
  apply find?_domain_unique
  · intro r hr hrd
    exact hall r (List.mem_reverse.mp hr) hrd
  · rcases hex with ⟨r, hr, hrd⟩
    exact ⟨r, List.mem_reverse.mpr hr, hrd⟩

lemma sortResults_invalid_first
    (invalid valid order : List String) (f : String → DomainCheckResult) (msg : String)
    (hdisj : ∀ d, d ∈ invalid → d ∈ valid → False)
    (hperm : order.Perm valid)
    (hf : ∀ d ∈ valid, (f d).domain = d) :
    sortResultsByOriginalOrder
        (invalid.map (fun d => getErrorResult d msg) ++ order.map f)
        (invalid ++ valid) =
      invalid.map (fun d => getErrorResult d msg) ++ valid.map f := by
  have horder : ∀ x ∈ order, x ∈ valid := fun x hx => hperm.mem_iff.mp hx
  unfold sortResultsByOriginalOrder
  rw [List.map_append]
  congr 1
  · apply List.map_congr_left
    intro d hd
    have hget : resultMapGet
        (invalid.map (fun d => getErrorResult d msg) ++ order.map f) d =
        some (getErrorResult d msg) := by
      apply resultMapGet_unique
      · intro r hr hrd
        rcases List.mem_append.mp hr with hri | hrv
        · rcases List.mem_map.mp hri with ⟨x, _, rfl⟩
          have : x = d := hrd
          rw [this]
        · rcases List.mem_map.mp hrv with ⟨x, hx, rfl⟩
          have hxv : x ∈ valid := horder x hx
          have : x = d := by rw [← hf x hxv]; exact hrd
          subst this
          exact absurd hxv (fun hv => hdisj x hd hv)
      · exact ⟨getErrorResult d msg, List.mem_append_left _ (List.mem_map_of_mem _ hd), rfl⟩
    rw [hget]
    rfl
  · apply List.map_congr_left
    intro d hd
    have hget : resultMapGet
        (invalid.map (fun d => getErrorResult d msg) ++ order.map f) d = some (f d) := by
      apply resultMapGet_unique
      · intro r hr hrd
        rcases List.mem_append.mp hr with hri | hrv
        · rcases List.mem_map.mp hri with ⟨x, hx, rfl⟩
          have : x = d := hrd
          subst this
          exact absurd hd (fun hv => hdisj x hx hv)
        · rcases List.mem_map.mp hrv with ⟨x, hx, rfl⟩
          have hxv : x ∈ valid := horder x hx
          have : x = d := by rw [← hf x hxv]; exact hrd
          rw [this]
      · refine ⟨f d, List.mem_append_right _ ?_, hf d hd⟩
        exact List.mem_map_of_mem f (hperm.mem_iff.mpr hd)
    rw [hget]
    rfl

lemma filter_length_partition (p q : String → Bool) (l : List String) :
    (l.filter (fun a => p a && q a)).length + (l.filter (fun a => p a && !(q a))).length =
      (l.filter p).length := by
  induction l with
  | nil => rfl
  | cons a t ih =>
    cases hp : p a <;> cases hq : q a <;>
      simp [List.filter_cons, hp, hq] <;> omega

lemma validDomainsOf_disjoint (domains : List String) :
    ∀ d, d ∈ invalidDomainsOf domains → d ∈ validDomainsOf domains → False := by
  intro d hi hv
  have h1 := (List.mem_filter.mp hi).2
  have h2 := (List.mem_filter.mp hv).2
  simp only [Bool.and_eq_true, Bool.not_eq_true'] at h1 h2
  rw [h1.2] at h2
  cases h2.2

/-- C1 counterexample. On
`["example.com", "not a domain", "gmail.com"]` the output is **not** in
input order: `_sortResultsByOriginalOrder` is keyed on
`[...invalidDomains, ...validDomains]`, so the invalid entry comes first,
and the middle element of the output is the result for `example.com`,
which carries no error and a non-zero score — contradicting the claim
that the middle entry is the invalid one with non-empty `error` and
`securityScore = 0`.  (The completion order `["gmail.com",
"example.com"]` shows the re-sort, not the workers, fixes positions.) -/
theorem checkDomains_input_order_counterexample :
    (checkDomains false ["example.com", "not a domain", "gmail.com"] stubResult
        ["gmail.com", "example.com"]).1 =
      .ok [getErrorResult "not a domain" "Некорректный формат доменного имени",
           stubResult "example.com", stubResult "gmail.com"] ∧
    (stubResult "example.com").error = none ∧
    (stubResult "example.com").securityScore = 100 := by
  refine ⟨?_, rfl, rfl⟩
  rfl

/-- C1 (amended). `checkDomains` returns one result per trimmed
non-empty input entry, ordered with the invalid entries first (in their
original relative order) followed by the valid entries (in their original
relative order) — not in plain input order — and this holds regardless of
the order in which workers complete the individual checks (any permutation
`order` of the valid domains).  In the example
`["example.com", "not a domain", "gmail.com"]` the invalid entry is
therefore **first**, carrying a non-empty error and `securityScore` 0. -/
theorem checkDomains_invalid_first_order
    (domains : List String) (f : String → DomainCheckResult) (order : List String)
    (hperm : order.Perm (validDomainsOf domains))
    (hf : ∀ d ∈ validDomainsOf domains, (f d).domain = d)
    (hne : validDomainsOf domains ≠ []) :
    (checkDomains false domains f order).1 =
      .ok ((invalidDomainsOf domains).map
            (fun d => getErrorResult d "Некорректный формат доменного имени") ++
           (validDomainsOf domains).map f) ∧
    (invalidDomainsOf domains).length + (validDomainsOf domains).length =
      ((trimmedOf domains).filter (fun d => decide (0 < d.length))).length := by
  constructor
  · have hie : (validDomainsOf domains).isEmpty = false := List.isEmpty_eq_false.mpr hne
    simp only [checkDomains, Bool.false_eq_true, if_false, hie]
    exact congrArg Except.ok
      (sortResults_invalid_first (invalidDomainsOf domains) (validDomainsOf domains)
        order f "Некорректный формат доменного имени"
        (validDomainsOf_disjoint domains) hperm hf)
  · rw [Nat.add_comm]
    exact filter_length_partition (fun d => decide (0 < d.length)) isValidDomain
      (trimmedOf domains)

/-- Witness for `checkDomains_invalid_first_order` at the concrete triple
of the claim, with the completion order reversed relative to the queue. -/
theorem checkDomains_invalid_first_order_spot :
    (checkDomains false ["example.com", "not a domain", "gmail.com"] stubResult
        ["gmail.com", "example.com"]).1 =
      .ok ((invalidDomainsOf ["example.com", "not a domain", "gmail.com"]).map
            (fun d => getErrorResult d "Некорректный формат доменного имени") ++
           (validDomainsOf ["example.com", "not a domain", "gmail.com"]).map stubResult) :=
  (checkDomains_invalid_first_order ["example.com", "not a domain", "gmail.com"]
    stubResult ["gmail.com", "example.com"]
    (by decide) (fun d _ => rfl) (by decide)).1

end DmarcClient
